import Mathlib

/-!
Shallow embedding of the two `wc`-clone implementations in this repository
(`cc-wc/src/main.rs` and `ccwc/src/main.rs`).

Bytes are modelled as natural numbers; every byte delivered by a reader
satisfies `b < 256` (stated as a hypothesis where a proof needs it).
Counts are `u64` in the source; they only ever grow by at most the input
length per step, so overflow is unreachable for any finite input and the
counts are modelled as `Nat`.  The single place where machine wrap-around
semantics matters — `byte.wrapping_sub(9)` in `ccwc` — is modelled with an
explicit `% 256`.
-/

namespace WcSpec

/-! ## cc-wc counters (`cc-wc/src/main.rs`) -/

/-- State of `struct CharCounter` in `cc-wc/src/main.rs`. -/
structure CharCounter where
  char_count : Nat
  remaining_bytes_in_char : Nat
  invalid_chars_found : Bool
deriving DecidableEq, Repr

/-- `CharCounter::new`. -/
def CharCounter.new : CharCounter :=
  { char_count := 0, remaining_bytes_in_char := 0, invalid_chars_found := false }

/-- Body of the per-byte loop of `CharCounter::count_chars`:
classification of one byte by its leading bits and the state update. -/
def CharCounter.step (s : CharCounter) (byte : Nat) : CharCounter :=
  if byte &&& 128 = 0 then
    -- 0xxxxxxx, ASCII
    { s with char_count := s.char_count + 1, remaining_bytes_in_char := 0 }
  else if byte &&& 64 = 0 then
    -- 10xxxxxx, UTF-8 tail
    match s.remaining_bytes_in_char with
    | 0 => { s with invalid_chars_found := true } -- tail with no head
    | n + 1 =>
      { s with
        remaining_bytes_in_char := n,
        char_count := if n = 0 then s.char_count + 1 else s.char_count }
  else if byte &&& 32 = 0 then
    -- 110xxxxx, 2-byte UTF-8 head
    { s with remaining_bytes_in_char := 1 }
  else if byte &&& 16 = 0 then
    -- 1110xxxx, 3-byte UTF-8 head
    { s with remaining_bytes_in_char := 2 }
  else if byte &&& 8 = 0 then
    -- 11110xxx, 4-byte UTF-8 head
    { s with remaining_bytes_in_char := 3 }
  else
    -- Invalid byte
    { s with invalid_chars_found := true, remaining_bytes_in_char := 0 }

/-- `CharCounter::count_chars` over one chunk. -/
def CharCounter.count_chars (s : CharCounter) (chunk : List Nat) : CharCounter :=
  chunk.foldl CharCounter.step s

/-- The warning condition checked by `main` after the read loop:
`char_counter.invalid_chars_found || char_counter.remaining_bytes_in_char != 0`. -/
def CharCounter.utf8Warning (s : CharCounter) : Bool :=
  s.invalid_chars_found || !(s.remaining_bytes_in_char == 0)

/-- State of `struct NewlineCounter`. -/
structure NewlineCounter where
  line_count : Nat
deriving DecidableEq, Repr

/-- `NewlineCounter::new`. -/
def NewlineCounter.new : NewlineCounter := { line_count := 0 }

/-- `NewlineCounter::count_newlines`: adds the number of `0x0A` bytes in the
chunk (`memchr_iter(b'\n', chunk).count()`). -/
def NewlineCounter.count_newlines (s : NewlineCounter) (chunk : List Nat) : NewlineCounter :=
  { line_count := s.line_count + chunk.countP (fun b => b == 10) }

/-- Rust's `u8::is_ascii_whitespace`: matches
`b'\t' | b'\n' | b'\x0C' | b'\r' | b' '` (note: U+000B vertical tab is not
in this set). -/
def isAsciiWhitespace (b : Nat) : Bool :=
  b == 9 || b == 10 || b == 12 || b == 13 || b == 32

/-- State of `struct WordCounter`. -/
structure WordCounter where
  word_count : Nat
  in_word : Bool
deriving DecidableEq, Repr

/-- `WordCounter::new`. -/
def WordCounter.new : WordCounter := { word_count := 0, in_word := false }

/-- Body of the per-byte loop of `WordCounter::count_words`. -/
def WordCounter.step (s : WordCounter) (byte : Nat) : WordCounter :=
  let is_whitespace := isAsciiWhitespace byte
  { word_count := s.word_count + (if !is_whitespace && !s.in_word then 1 else 0),
    in_word := !is_whitespace }

/-- `WordCounter::count_words` over one chunk. -/
def WordCounter.count_words (s : WordCounter) (chunk : List Nat) : WordCounter :=
  chunk.foldl WordCounter.step s

/-- State of `struct ByteCounter`.  The metadata size hint is modelled as
`Option Nat`. -/
structure ByteCounter where
  metadata_found : Bool
  byte_count : Nat
deriving DecidableEq, Repr

/-- `ByteCounter::new`. -/
def ByteCounter.new (metadata : Option Nat) : ByteCounter :=
  match metadata with
  | none => { metadata_found := false, byte_count := 0 }
  | some len => { metadata_found := true, byte_count := len }

/-- `ByteCounter::count_bytes`. -/
def ByteCounter.count_bytes (s : ByteCounter) (bytes_read : Nat) : ByteCounter :=
  if !s.metadata_found then { s with byte_count := s.byte_count + bytes_read } else s

/-! ## cc-wc driver (`main` in `cc-wc/src/main.rs`) -/

/-- Flag defaulting at the top of both `main`s: if no flag is selected the
selection becomes `(bytes, chars, lines, words) = (true, false, true, true)`. -/
def resolveFlags (pb pc pl pw : Bool) : Bool × Bool × Bool × Bool :=
  if !(pb || pc || pl || pw) then (true, false, true, true) else (pb, pc, pl, pw)

/-- One outcome of `reader.read(&mut buffer)`: a chunk of bytes (empty means
end-of-stream) or an I/O error. -/
inductive ReadResult where
  | ok : List Nat → ReadResult
  | err : ReadResult
deriving DecidableEq, Repr

/-- The four counters owned by `main` in `cc-wc/src/main.rs`. -/
structure WcCounters where
  bc : ByteCounter
  cc : CharCounter
  nc : NewlineCounter
  wc : WordCounter
deriving DecidableEq, Repr

/-- Counter initialization in `main`. -/
def initCounters (metadata : Option Nat) : WcCounters :=
  { bc := ByteCounter.new metadata, cc := CharCounter.new,
    nc := NewlineCounter.new, wc := WordCounter.new }

/-- The body of the read loop in `cc-wc`'s `main`: one non-empty chunk is
dispatched to each enabled counter. -/
def wcChunkStep (pb pc pl pw : Bool) (s : WcCounters) (chunk : List Nat) : WcCounters :=
  let s := if pb then { s with bc := s.bc.count_bytes chunk.length } else s
  let s := if pc then { s with cc := s.cc.count_chars chunk } else s
  let s := if pl then { s with nc := s.nc.count_newlines chunk } else s
  if pw then { s with wc := s.wc.count_words chunk } else s

/-- The read loop `while let Ok(bytes_read) = reader.read(&mut buffer)` of
`cc-wc`'s `main`, driven by the successive outcomes the reader produces:
an `Err` result or a zero-length read exits the loop (and `main` then goes
on to print whatever the counters hold). -/
def wcLoop (pb pc pl pw : Bool) (s : WcCounters) : List ReadResult → WcCounters
  | [] => s
  | ReadResult.err :: _ => s
  | ReadResult.ok chunk :: rest =>
    if chunk.length = 0 then s
    else wcLoop pb pc pl pw (wcChunkStep pb pc pl pw s chunk) rest

/-- What `cc-wc`'s `main` writes after the loop: the numeric fields, in
order newline / word / char / byte for the enabled counters, plus the
UTF-8 warning condition.  `main` always reaches this point for every read
sequence and returns `Ok(())`. -/
structure WcOutput where
  fields : List Nat
  warning : Bool
deriving DecidableEq, Repr

/-- `cc-wc`'s `main` from the point where the reader exists: run the read
loop, then assemble the printed numeric fields and the UTF-8 warning. -/
def wcMain (pb pc pl pw : Bool) (metadata : Option Nat) (reads : List ReadResult) : WcOutput :=
  let s := wcLoop pb pc pl pw (initCounters metadata) reads
  { fields :=
      (if pl then [s.nc.line_count] else []) ++
      (if pw then [s.wc.word_count] else []) ++
      (if pc then [s.cc.char_count] else []) ++
      (if pb then [s.bc.byte_count] else []),
    warning := s.cc.utf8Warning }

/-! ## ccwc (`ccwc/src/main.rs`) -/

/-- The whitespace test in `ccwc`'s word loop:
`byte == b' ' || (byte.wrapping_sub(9) <= 4)` on `u8`, with the wrapping
subtraction made explicit as arithmetic modulo 256. -/
def ccwcIsWhitespace (b : Nat) : Bool :=
  b == 32 || ((b + 256 - 9) % 256 <= 4)

/-- The accumulators of `ccwc`'s `main`:
`(mut chars, mut lines, mut words) = (0, 0, 0)`, `mut in_word = false` and
`mut bytes` (file size if metadata exists, else 0). -/
structure CcwcState where
  bytes : Nat
  chars : Nat
  lines : Nat
  words : Nat
  in_word : Bool
deriving DecidableEq, Repr

/-- Initialization of `ccwc`'s accumulators. -/
def ccwcInit (metadata : Option Nat) : CcwcState :=
  { bytes := match metadata with | some len => len | none => 0,
    chars := 0, lines := 0, words := 0, in_word := false }

/-- One step of `ccwc`'s inner word loop, acting on `(words, in_word)`. -/
def ccwcWordStep (t : Nat × Bool) (byte : Nat) : Nat × Bool :=
  let is_whitespace := ccwcIsWhitespace byte
  (t.1 + (if !is_whitespace && !t.2 then 1 else 0), !is_whitespace)

/-- The body of `ccwc`'s read loop on one non-empty chunk.  Note the source
has a bare `// Char count` comment with no code: `chars` is never updated. -/
def ccwcChunkStep (pb pl pw : Bool) (metadata_none : Bool) (s : CcwcState)
    (chunk : List Nat) : CcwcState :=
  let s := if pb && metadata_none then { s with bytes := s.bytes + chunk.length } else s
  let s := if pl then { s with lines := s.lines + chunk.countP (fun b => b == 10) } else s
  if pw then
    let t := chunk.foldl ccwcWordStep (s.words, s.in_word)
    { s with words := t.1, in_word := t.2 }
  else s

/-- The read loop of `ccwc`'s `main` (same `while let Ok(..)` shape as
`cc-wc`): an `Err` or zero-length read exits the loop. -/
def ccwcLoop (pb pl pw : Bool) (metadata_none : Bool) (s : CcwcState) :
    List ReadResult → CcwcState
  | [] => s
  | ReadResult.err :: _ => s
  | ReadResult.ok chunk :: rest =>
    if chunk.length = 0 then s
    else ccwcLoop pb pl pw metadata_none (ccwcChunkStep pb pl pw metadata_none s chunk) rest

/-- The numeric fields `ccwc`'s `main` prints after the loop: lines, words,
bytes for the enabled flags.  There is no branch for `print_chars`. -/
def ccwcFields (pb pl pw : Bool) (s : CcwcState) : List Nat :=
  (if pl then [s.lines] else []) ++
  (if pw then [s.words] else []) ++
  (if pb then [s.bytes] else [])

/-- `ccwc`'s `main` from the point where the reader exists. -/
def ccwcMain (pb pc pl pw : Bool) (metadata : Option Nat) (reads : List ReadResult) :
    List Nat :=
  let _ := pc -- parsed and resolved, but never consulted after flag resolution
  let s := ccwcLoop pb pl pw metadata.isNone (ccwcInit metadata) reads
  ccwcFields pb pl pw s

/-! ## Valid UTF-8 (mathematical definitions used to state claims) -/

/-- A Unicode scalar value: a code point outside the surrogate range. -/
def ValidScalar (c : Nat) : Prop :=
  c < 0x110000 ∧ ¬(0xD800 ≤ c ∧ c ≤ 0xDFFF)

instance (c : Nat) : Decidable (ValidScalar c) := by
  unfold ValidScalar; infer_instance

/-- The standard UTF-8 encoding of a code point, written arithmetically:
1 byte below 0x80, 2 bytes below 0x800, 3 bytes below 0x10000, else 4. -/
def utf8EncodeChar (c : Nat) : List Nat :=
  if c < 0x80 then [c]
  else if c < 0x800 then [0xC0 + c / 0x40, 0x80 + c % 0x40]
  else if c < 0x10000 then
    [0xE0 + c / 0x1000, 0x80 + c / 0x40 % 0x40, 0x80 + c % 0x40]
  else
    [0xF0 + c / 0x40000, 0x80 + c / 0x1000 % 0x40, 0x80 + c / 0x40 % 0x40, 0x80 + c % 0x40]

/-- The UTF-8 encoding of a sequence of code points. -/
def utf8Encode (cs : List Nat) : List Nat :=
  (cs.map utf8EncodeChar).flatten

/-! ## Byte classification: leading-bit tests versus value ranges -/

set_option maxRecDepth 40000

lemma land_ascii : ∀ b, b < 128 → b &&& 128 = 0 := by decide

lemma land_cont : ∀ b, b < 192 → 128 ≤ b → ¬(b &&& 128 = 0) ∧ b &&& 64 = 0 := by decide

lemma land_lead2 : ∀ b, b < 224 → 192 ≤ b →
    ¬(b &&& 128 = 0) ∧ ¬(b &&& 64 = 0) ∧ b &&& 32 = 0 := by decide

lemma land_lead3 : ∀ b, b < 240 → 224 ≤ b →
    ¬(b &&& 128 = 0) ∧ ¬(b &&& 64 = 0) ∧ ¬(b &&& 32 = 0) ∧ b &&& 16 = 0 := by decide

lemma land_lead4 : ∀ b, b < 248 → 240 ≤ b →
    ¬(b &&& 128 = 0) ∧ ¬(b &&& 64 = 0) ∧ ¬(b &&& 32 = 0) ∧ ¬(b &&& 16 = 0) ∧
      b &&& 8 = 0 := by decide

lemma whitespace_eq_of_ne_vt : ∀ b, b < 256 → b ≠ 11 →
    ccwcIsWhitespace b = isAsciiWhitespace b := by decide

/-! ## Single-byte behaviour of `CharCounter::count_chars` -/

lemma step_ascii (s : CharCounter) (b : Nat) (h : b < 128) :
    CharCounter.step s b = ⟨s.char_count + 1, 0, s.invalid_chars_found⟩ := by
  unfold CharCounter.step
  rw [if_pos (land_ascii b h)]

lemma step_cont_pending (s : CharCounter) (b n : Nat) (h1 : 128 ≤ b) (h2 : b < 192)
    (hr : s.remaining_bytes_in_char = n + 1) :
    CharCounter.step s b
      = ⟨if n = 0 then s.char_count + 1 else s.char_count, n, s.invalid_chars_found⟩ := by
  unfold CharCounter.step
  rw [if_neg (land_cont b h2 h1).1, if_pos (land_cont b h2 h1).2, hr]

lemma step_cont_stray (s : CharCounter) (b : Nat) (h1 : 128 ≤ b) (h2 : b < 192)
    (hr : s.remaining_bytes_in_char = 0) :
    CharCounter.step s b = ⟨s.char_count, 0, true⟩ := by
  unfold CharCounter.step
  rw [if_neg (land_cont b h2 h1).1, if_pos (land_cont b h2 h1).2, hr]

lemma step_lead2 (s : CharCounter) (b : Nat) (h1 : 192 ≤ b) (h2 : b < 224) :
    CharCounter.step s b = ⟨s.char_count, 1, s.invalid_chars_found⟩ := by
  unfold CharCounter.step
  rw [if_neg (land_lead2 b h2 h1).1, if_neg (land_lead2 b h2 h1).2.1,
    if_pos (land_lead2 b h2 h1).2.2]

lemma step_lead3 (s : CharCounter) (b : Nat) (h1 : 224 ≤ b) (h2 : b < 240) :
    CharCounter.step s b = ⟨s.char_count, 2, s.invalid_chars_found⟩ := by
  unfold CharCounter.step
  rw [if_neg (land_lead3 b h2 h1).1, if_neg (land_lead3 b h2 h1).2.1,
    if_neg (land_lead3 b h2 h1).2.2.1, if_pos (land_lead3 b h2 h1).2.2.2]

lemma step_lead4 (s : CharCounter) (b : Nat) (h1 : 240 ≤ b) (h2 : b < 248) :
    CharCounter.step s b = ⟨s.char_count, 3, s.invalid_chars_found⟩ := by
  unfold CharCounter.step
  rw [if_neg (land_lead4 b h2 h1).1, if_neg (land_lead4 b h2 h1).2.1,
    if_neg (land_lead4 b h2 h1).2.2.1, if_neg (land_lead4 b h2 h1).2.2.2.1,
    if_pos (land_lead4 b h2 h1).2.2.2.2]

/-! ## Folding lemmas for the three streaming counters -/

lemma count_chars_append (s : CharCounter) (a b : List Nat) :
    CharCounter.count_chars s (a ++ b)
      = CharCounter.count_chars (CharCounter.count_chars s a) b :=
  List.foldl_append CharCounter.step s a b

lemma foldl_count_chars (chunks : List (List Nat)) (s : CharCounter) :
    chunks.foldl CharCounter.count_chars s = CharCounter.count_chars s chunks.flatten :=
  (List.foldl_flatten CharCounter.step s chunks).symm

lemma foldl_count_words (chunks : List (List Nat)) (s : WordCounter) :
    chunks.foldl WordCounter.count_words s = WordCounter.count_words s chunks.flatten :=
  (List.foldl_flatten WordCounter.step s chunks).symm

lemma count_newlines_append (s : NewlineCounter) (a b : List Nat) :
    NewlineCounter.count_newlines s (a ++ b)
      = NewlineCounter.count_newlines (NewlineCounter.count_newlines s a) b := by
  simp [NewlineCounter.count_newlines, List.countP_append, Nat.add_assoc]

lemma foldl_count_newlines (chunks : List (List Nat)) :
    ∀ s : NewlineCounter,
      chunks.foldl NewlineCounter.count_newlines s
        = NewlineCounter.count_newlines s chunks.flatten := by
  induction chunks with
  | nil => intro s; simp [NewlineCounter.count_newlines]
  | cons c cs ih => intro s; simp [List.foldl_cons, ih, count_newlines_append]

lemma step_sticky (s : CharCounter) (b : Nat) (h : s.invalid_chars_found = true) :
    (CharCounter.step s b).invalid_chars_found = true := by
  unfold CharCounter.step
  repeat' split
  all_goals simp_all

lemma count_chars_sticky (chunk : List Nat) : ∀ s : CharCounter,
    s.invalid_chars_found = true →
    (CharCounter.count_chars s chunk).invalid_chars_found = true := by
  induction chunk with
  | nil => intro s h; exact h
  | cons b bs ih => intro s h; exact ih (CharCounter.step s b) (step_sticky s b h)

/-! ## Claim theorems -/

/-- Claim C1: for every byte sequence and every way of splitting it into
consecutive chunks, feeding the chunks one at a time to `WordCounter`,
`NewlineCounter` and `CharCounter` (in arrival order) yields the same final
word, line and character counts as feeding the whole sequence as a single
chunk. -/
theorem C1_chunk_invariance (chunks : List (List Nat)) :
    (chunks.foldl WordCounter.count_words WordCounter.new).word_count
      = (WordCounter.count_words WordCounter.new chunks.flatten).word_count
    ∧ (chunks.foldl NewlineCounter.count_newlines NewlineCounter.new).line_count
      = (NewlineCounter.count_newlines NewlineCounter.new chunks.flatten).line_count
    ∧ (chunks.foldl CharCounter.count_chars CharCounter.new).char_count
      = (CharCounter.count_chars CharCounter.new chunks.flatten).char_count := by
  refine ⟨?_, ?_, ?_⟩
  · rw [foldl_count_words]
  · rw [foldl_count_newlines]
  · rw [foldl_count_chars]

/-- Claim C8: `CharCounter.invalid_chars_found` is sticky — once true it
remains true across every subsequent `count_chars` call (hence after every
subsequent byte processed). -/
theorem C8_sticky_flag (s : CharCounter) (chunks : List (List Nat))
    (h : s.invalid_chars_found = true) :
    (chunks.foldl CharCounter.count_chars s).invalid_chars_found = true := by
  rw [foldl_count_chars]
  exact count_chars_sticky chunks.flatten s h

/-- Witness for C8 at a concrete state and chunk sequence. -/
theorem C8_sticky_flag_witness :
    (([[65, 200], [204]] : List (List Nat)).foldl CharCounter.count_chars
      ⟨3, 0, true⟩).invalid_chars_found = true :=
  C8_sticky_flag ⟨3, 0, true⟩ [[65, 200], [204]] rfl

lemma count_bytes_with_metadata (lens : List Nat) : ∀ s : ByteCounter,
    s.metadata_found = true → lens.foldl ByteCounter.count_bytes s = s := by
  induction lens with
  | nil => intro s _; rfl
  | cons l ls ih =>
    intro s h
    have hstep : ByteCounter.count_bytes s l = s := by
      simp [ByteCounter.count_bytes, h]
    rw [List.foldl_cons, hstep]
    exact ih s h

lemma count_bytes_no_metadata (lens : List Nat) : ∀ n : Nat,
    lens.foldl ByteCounter.count_bytes ⟨false, n⟩ = ⟨false, n + lens.sum⟩ := by
  induction lens with
  | nil => intro n; simp
  | cons l ls ih =>
    intro n
    rw [List.foldl_cons]
    show ls.foldl ByteCounter.count_bytes ⟨false, n + l⟩ = _
    rw [ih (n + l)]
    simp [List.sum_cons, Nat.add_assoc]

/-- Claim C5: a `ByteCounter` built from a size hint of 42 reports 42 no
matter which chunks are fed (their lengths are never summed), while one
built without a hint reports the sum of the chunk lengths (40 here); the
mode flag fixed at construction never changes. -/
theorem C5_byte_counter (lens : List Nat) (h : lens.sum = 40) :
    (lens.foldl ByteCounter.count_bytes (ByteCounter.new (some 42))).byte_count = 42
    ∧ (lens.foldl ByteCounter.count_bytes (ByteCounter.new (some 42))).metadata_found = true
    ∧ (lens.foldl ByteCounter.count_bytes (ByteCounter.new none)).byte_count = 40
    ∧ (lens.foldl ByteCounter.count_bytes (ByteCounter.new none)).metadata_found = false := by
  have h42 : lens.foldl ByteCounter.count_bytes (ByteCounter.new (some 42))
      = ByteCounter.new (some 42) := count_bytes_with_metadata lens _ rfl
  have h0 : lens.foldl ByteCounter.count_bytes (ByteCounter.new none)
      = ⟨false, 0 + lens.sum⟩ := count_bytes_no_metadata lens 0
  rw [h42, h0]
  refine ⟨rfl, rfl, ?_, rfl⟩
  simp [h]

/-- Witness for C5: chunks of lengths 16, 16 and 8 (total 40). -/
theorem C5_byte_counter_witness :
    ([16, 16, 8] : List Nat).sum = 40
    ∧ (([16, 16, 8] : List Nat).foldl ByteCounter.count_bytes
        (ByteCounter.new (some 42))).byte_count = 42
    ∧ (([16, 16, 8] : List Nat).foldl ByteCounter.count_bytes
        (ByteCounter.new none)).byte_count = 40 :=
  ⟨by decide, (C5_byte_counter [16, 16, 8] (by decide)).1,
    (C5_byte_counter [16, 16, 8] (by decide)).2.2.1⟩

lemma count_words_boundary (bytes : List Nat) : ∀ (w : Nat) (prev : Nat),
    (WordCounter.count_words ⟨w, !isAsciiWhitespace prev⟩ bytes).word_count
      = w + ((bytes.zip (prev :: bytes)).countP
          fun p => !isAsciiWhitespace p.1 && isAsciiWhitespace p.2) := by
  induction bytes with
  | nil => intro w prev; simp [WordCounter.count_words]
  | cons b bs ih =>
    intro w prev
    have hstep : WordCounter.step ⟨w, !isAsciiWhitespace prev⟩ b
        = ⟨w + (if !isAsciiWhitespace b && isAsciiWhitespace prev then 1 else 0),
            !isAsciiWhitespace b⟩ := by
      simp [WordCounter.step]
    show (WordCounter.count_words
        (WordCounter.step ⟨w, !isAsciiWhitespace prev⟩ b) bs).word_count = _
    rw [hstep, ih]
    rw [List.zip_cons_cons, List.countP_cons]
    cases h : (!isAsciiWhitespace b && isAsciiWhitespace prev) <;> simp [h] <;> try omega

/-- Counterexample to Claim C3 as stated: 0x0B (vertical tab) is claimed to
be in the whitespace set, so `"a\x0Bb"` would contain two words; the code
classifies 0x0B as non-whitespace and counts one word. -/
theorem C3_counterexample :
    isAsciiWhitespace 11 = false
    ∧ (WordCounter.count_words WordCounter.new [97, 11, 98]).word_count ≠ 2 := by
  decide

/-- Claim C3 (amended): the whitespace set used by `WordCounter` is exactly
the five ASCII bytes 0x09, 0x0A, 0x0C, 0x0D, 0x20 (vertical tab 0x0B is
not whitespace), and the word count over a stream equals the number of
positions holding a non-whitespace byte whose predecessor — or the start of
the stream — is whitespace. -/
theorem C3_amended (bytes : List Nat) :
    (∀ b, isAsciiWhitespace b = true ↔ (b = 9 ∨ b = 10 ∨ b = 12 ∨ b = 13 ∨ b = 32))
    ∧ (WordCounter.count_words WordCounter.new bytes).word_count
      = ((bytes.zip (32 :: bytes)).countP
          fun p => !isAsciiWhitespace p.1 && isAsciiWhitespace p.2) := by
  constructor
  · intro b
    simp only [isAsciiWhitespace, Bool.or_eq_true, beq_iff_eq]
    tauto
  · have h := count_words_boundary bytes 0 32
    simpa using h

/-- Claim C7: an ASCII byte or a fresh lead byte arriving while a multi-byte
sequence is pending silently discards the pending sequence — the remaining
counter is reset or overwritten, the invalid flag is untouched, no character
is counted for the discarded sequence — and an interrupting ASCII byte is
itself counted as one complete character. -/
theorem C7_interrupt (s : CharCounter) (b : Nat)
    (_h : s.remaining_bytes_in_char ≠ 0) :
    (b < 128 → CharCounter.step s b = ⟨s.char_count + 1, 0, s.invalid_chars_found⟩)
    ∧ (192 ≤ b → b < 224 →
        CharCounter.step s b = ⟨s.char_count, 1, s.invalid_chars_found⟩)
    ∧ (224 ≤ b → b < 240 →
        CharCounter.step s b = ⟨s.char_count, 2, s.invalid_chars_found⟩)
    ∧ (240 ≤ b → b < 248 →
        CharCounter.step s b = ⟨s.char_count, 3, s.invalid_chars_found⟩) :=
  ⟨fun ha => step_ascii s b ha,
   fun h1 h2 => step_lead2 s b h1 h2,
   fun h1 h2 => step_lead3 s b h1 h2,
   fun h1 h2 => step_lead4 s b h1 h2⟩

/-- Witness for C7: state with two continuation bytes still pending,
interrupted by ASCII `A` (counted, pending dropped) or by the 2-byte lead
0xC3 (pending overwritten, nothing counted, flag untouched). -/
theorem C7_interrupt_witness :
    (⟨5, 2, false⟩ : CharCounter).remaining_bytes_in_char ≠ 0
    ∧ CharCounter.step ⟨5, 2, false⟩ 65 = ⟨6, 0, false⟩
    ∧ CharCounter.step ⟨5, 2, false⟩ 195 = ⟨5, 1, false⟩ :=
  ⟨by decide,
   (C7_interrupt ⟨5, 2, false⟩ 65 (by decide)).1 (by decide),
   (C7_interrupt ⟨5, 2, false⟩ 195 (by decide)).2.1 (by decide) (by decide)⟩

lemma count_chars_conts (tail : List Nat) : ∀ s : CharCounter,
    (∀ t ∈ tail, 128 ≤ t ∧ t < 192) →
    tail.length < s.remaining_bytes_in_char →
    CharCounter.count_chars s tail
      = ⟨s.char_count, s.remaining_bytes_in_char - tail.length,
          s.invalid_chars_found⟩ := by
  induction tail with
  | nil =>
    intro s _ _
    show s = _
    simp
  | cons t ts ih =>
    intro s ht hlen
    obtain ⟨n, hn⟩ : ∃ n, s.remaining_bytes_in_char = n + 1 :=
      ⟨s.remaining_bytes_in_char - 1, by simp at hlen; omega⟩
    have hnz : ¬(n = 0) := by simp at hlen; omega
    have hstep : CharCounter.step s t = ⟨s.char_count, n, s.invalid_chars_found⟩ := by
      rw [step_cont_pending s t n (ht t (by simp)).1 (ht t (by simp)).2 hn, if_neg hnz]
    show (CharCounter.count_chars (CharCounter.step s t) ts) = _
    rw [hstep, ih ⟨s.char_count, n, s.invalid_chars_found⟩
      (fun x hx => ht x (by simp [hx])) (by simp at hlen ⊢; omega)]
    simp [hn]

/-- Claim C6: after a lead byte followed by fewer continuation bytes than it
requires, at end-of-stream the remaining-continuation counter is nonzero,
the incomplete trailing character was not added to the count, the sticky
invalid flag is untouched, and `main`'s warning condition
(`invalid_chars_found || remaining_bytes_in_char != 0`) fires. -/
theorem C6_truncated_tail (s : CharCounter) (b r : Nat) (tail : List Nat)
    (hb : (192 ≤ b ∧ b < 224 ∧ r = 1) ∨ (224 ≤ b ∧ b < 240 ∧ r = 2)
        ∨ (240 ≤ b ∧ b < 248 ∧ r = 3))
    (ht : ∀ t ∈ tail, 128 ≤ t ∧ t < 192) (hlen : tail.length < r) :
    (CharCounter.count_chars s (b :: tail)).char_count = s.char_count
    ∧ (CharCounter.count_chars s (b :: tail)).remaining_bytes_in_char
        = r - tail.length
    ∧ (CharCounter.count_chars s (b :: tail)).invalid_chars_found
        = s.invalid_chars_found
    ∧ (CharCounter.count_chars s (b :: tail)).utf8Warning = true := by
  have hstep : CharCounter.step s b = ⟨s.char_count, r, s.invalid_chars_found⟩ := by
    rcases hb with ⟨h1, h2, hr⟩ | ⟨h1, h2, hr⟩ | ⟨h1, h2, hr⟩ <;> subst hr
    · exact step_lead2 s b h1 h2
    · exact step_lead3 s b h1 h2
    · exact step_lead4 s b h1 h2
  have hall : CharCounter.count_chars s (b :: tail)
      = ⟨s.char_count, r - tail.length, s.invalid_chars_found⟩ := by
    show CharCounter.count_chars (CharCounter.step s b) tail = _
    rw [hstep, count_chars_conts tail _ ht (by simpa using hlen)]
  rw [hall]
  refine ⟨rfl, rfl, rfl, ?_⟩
  have : ¬(r - tail.length = 0) := by omega
  simp [CharCounter.utf8Warning, this]

/-- Witness for C6: a 3-byte lead `0xE2` followed by a single continuation
byte `0x82` at end-of-stream. -/
theorem C6_truncated_tail_witness :
    (CharCounter.count_chars CharCounter.new [226, 130]).char_count = 0
    ∧ (CharCounter.count_chars CharCounter.new [226, 130]).remaining_bytes_in_char = 1
    ∧ (CharCounter.count_chars CharCounter.new [226, 130]).invalid_chars_found = false
    ∧ (CharCounter.count_chars CharCounter.new [226, 130]).utf8Warning = true :=
  C6_truncated_tail CharCounter.new 226 2 [130]
    (Or.inr (Or.inl ⟨by decide, by decide, rfl⟩)) (by decide) (by decide)

lemma step_cont_mid (cnt m : Nat) (inv : Bool) (b : Nat)
    (h1 : 128 ≤ b) (h2 : b < 192) :
    CharCounter.step ⟨cnt, m + 2, inv⟩ b = ⟨cnt, m + 1, inv⟩ := by
  rw [step_cont_pending ⟨cnt, m + 2, inv⟩ b (m + 1) h1 h2 rfl]
  simp

lemma step_cont_last (cnt : Nat) (inv : Bool) (b : Nat)
    (h1 : 128 ≤ b) (h2 : b < 192) :
    CharCounter.step ⟨cnt, 1, inv⟩ b = ⟨cnt + 1, 0, inv⟩ := by
  rw [step_cont_pending ⟨cnt, 1, inv⟩ b 0 h1 h2 rfl]
  simp

lemma count_chars_encodeChar (c : Nat) (hc : c < 0x110000) (s : CharCounter) :
    CharCounter.count_chars s (utf8EncodeChar c)
      = ⟨s.char_count + 1, 0, s.invalid_chars_found⟩ := by
  by_cases h1 : c < 0x80
  · rw [utf8EncodeChar, if_pos h1]
    exact step_ascii s c h1
  by_cases h2 : c < 0x800
  · rw [utf8EncodeChar, if_neg h1, if_pos h2]
    show CharCounter.step (CharCounter.step s (0xC0 + c / 0x40)) (0x80 + c % 0x40) = _
    rw [step_lead2 s _ (by omega) (by omega),
      step_cont_last _ _ _ (by omega) (by omega)]
  by_cases h3 : c < 0x10000
  · rw [utf8EncodeChar, if_neg h1, if_neg h2, if_pos h3]
    show CharCounter.step (CharCounter.step (CharCounter.step s
        (0xE0 + c / 0x1000)) (0x80 + c / 0x40 % 0x40)) (0x80 + c % 0x40) = _
    rw [step_lead3 s _ (by omega) (by omega),
      show (2 : Nat) = 0 + 2 from rfl,
      step_cont_mid _ 0 _ _ (by omega) (by omega),
      step_cont_last _ _ _ (by omega) (by omega)]
  · rw [utf8EncodeChar, if_neg h1, if_neg h2, if_neg h3]
    show CharCounter.step (CharCounter.step (CharCounter.step (CharCounter.step s
        (0xF0 + c / 0x40000)) (0x80 + c / 0x1000 % 0x40))
        (0x80 + c / 0x40 % 0x40)) (0x80 + c % 0x40) = _
    rw [step_lead4 s _ (by omega) (by omega),
      show (3 : Nat) = 1 + 2 from rfl,
      step_cont_mid _ 1 _ _ (by omega) (by omega),
      show (1 : Nat) + 1 = 0 + 2 from rfl,
      step_cont_mid _ 0 _ _ (by omega) (by omega),
      step_cont_last _ _ _ (by omega) (by omega)]

lemma count_chars_utf8Encode (cs : List Nat) : ∀ s : CharCounter,
    (∀ c ∈ cs, c < 0x110000) → s.remaining_bytes_in_char = 0 →
    CharCounter.count_chars s (utf8Encode cs)
      = ⟨s.char_count + cs.length, 0, s.invalid_chars_found⟩ := by
  induction cs with
  | nil =>
    intro s _ h0
    show s = _
    obtain ⟨cnt, rem, inv⟩ := s
    simp only at h0
    simp [h0]
  | cons c cs' ih =>
    intro s hcs _
    show CharCounter.count_chars s (utf8EncodeChar c ++ utf8Encode cs') = _
    rw [count_chars_append,
      count_chars_encodeChar c (hcs c (by simp)) s,
      ih _ (fun x hx => hcs x (by simp [hx])) rfl]
    simp [CharCounter.mk.injEq]
    omega

/-- Claim C2: on any byte sequence that is a valid UTF-8 encoding, fed in any
chunking, `CharCounter`'s final count is the number of Unicode scalar values
encoded (not the number of bytes) and the invalid flag stays false. -/
theorem C2_valid_utf8 (cs : List Nat) (hcs : ∀ c ∈ cs, ValidScalar c)
    (chunks : List (List Nat)) (hsplit : chunks.flatten = utf8Encode cs) :
    (chunks.foldl CharCounter.count_chars CharCounter.new).char_count = cs.length
    ∧ (chunks.foldl CharCounter.count_chars CharCounter.new).invalid_chars_found
        = false := by
  rw [foldl_count_chars, hsplit,
    count_chars_utf8Encode cs CharCounter.new (fun c hc => (hcs c hc).1) rfl]
  exact ⟨Nat.zero_add cs.length, rfl⟩

/-- Witness for C2: the scalars of `"H€"` (the Euro sign is 3 bytes) split
into two chunks mid-character. -/
theorem C2_valid_utf8_witness :
    (∀ c ∈ ([72, 8364] : List Nat), ValidScalar c)
    ∧ ([[72, 226], [130, 172]] : List (List Nat)).flatten = utf8Encode [72, 8364]
    ∧ (([[72, 226], [130, 172]] : List (List Nat)).foldl CharCounter.count_chars
        CharCounter.new).char_count = 2
    ∧ (([[72, 226], [130, 172]] : List (List Nat)).foldl CharCounter.count_chars
        CharCounter.new).invalid_chars_found = false :=
  ⟨by decide, by decide,
   (C2_valid_utf8 [72, 8364] (by decide) [[72, 226], [130, 172]] (by decide)).1,
   (C2_valid_utf8 [72, 8364] (by decide) [[72, 226], [130, 172]] (by decide)).2⟩

/-! ## Simulation between the cc-wc and ccwc accumulators -/

lemma wcChunkStep_nc (pb pc pl pw : Bool) (s : WcCounters) (chunk : List Nat) :
    (wcChunkStep pb pc pl pw s chunk).nc
      = if pl then s.nc.count_newlines chunk else s.nc := by
  cases pb <;> cases pc <;> cases pl <;> cases pw <;> rfl

lemma wcChunkStep_wc (pb pc pl pw : Bool) (s : WcCounters) (chunk : List Nat) :
    (wcChunkStep pb pc pl pw s chunk).wc
      = if pw then s.wc.count_words chunk else s.wc := by
  cases pb <;> cases pc <;> cases pl <;> cases pw <;> rfl

lemma wcChunkStep_bc (pb pc pl pw : Bool) (s : WcCounters) (chunk : List Nat) :
    (wcChunkStep pb pc pl pw s chunk).bc
      = if pb then s.bc.count_bytes chunk.length else s.bc := by
  cases pb <;> cases pc <;> cases pl <;> cases pw <;> rfl

lemma ccwcChunkStep_lines (pb pl pw mn : Bool) (s : CcwcState) (chunk : List Nat) :
    (ccwcChunkStep pb pl pw mn s chunk).lines
      = if pl then s.lines + chunk.countP (fun b => b == 10) else s.lines := by
  cases pb <;> cases pl <;> cases pw <;> cases mn <;> rfl

lemma ccwcChunkStep_bytes (pb pl pw mn : Bool) (s : CcwcState) (chunk : List Nat) :
    (ccwcChunkStep pb pl pw mn s chunk).bytes
      = if pb && mn then s.bytes + chunk.length else s.bytes := by
  cases pb <;> cases pl <;> cases pw <;> cases mn <;> rfl

lemma ccwcChunkStep_words (pb pl pw mn : Bool) (s : CcwcState) (chunk : List Nat) :
    (ccwcChunkStep pb pl pw mn s chunk).words
      = if pw then (chunk.foldl ccwcWordStep (s.words, s.in_word)).1 else s.words := by
  cases pb <;> cases pl <;> cases pw <;> cases mn <;> rfl

lemma ccwcChunkStep_in_word (pb pl pw mn : Bool) (s : CcwcState) (chunk : List Nat) :
    (ccwcChunkStep pb pl pw mn s chunk).in_word
      = if pw then (chunk.foldl ccwcWordStep (s.words, s.in_word)).2 else s.in_word := by
  cases pb <;> cases pl <;> cases pw <;> cases mn <;> rfl

lemma ccwcChunkStep_chars (pb pl pw mn : Bool) (s : CcwcState) (chunk : List Nat) :
    (ccwcChunkStep pb pl pw mn s chunk).chars = s.chars := by
  cases pb <;> cases pl <;> cases pw <;> cases mn <;> rfl

lemma count_bytes_metadata_found (s : ByteCounter) (n : Nat) :
    (ByteCounter.count_bytes s n).metadata_found = s.metadata_found := by
  unfold ByteCounter.count_bytes
  split <;> rfl

lemma count_bytes_byte_count (s : ByteCounter) (n : Nat) :
    (ByteCounter.count_bytes s n).byte_count
      = if s.metadata_found then s.byte_count else s.byte_count + n := by
  unfold ByteCounter.count_bytes
  cases h : s.metadata_found <;> simp [h]

lemma ccwcWordStep_sim (b : Nat) (hb : b < 256) (h11 : b ≠ 11) (w : WordCounter) :
    ccwcWordStep (w.word_count, w.in_word) b
      = ((WordCounter.step w b).word_count, (WordCounter.step w b).in_word) := by
  simp [ccwcWordStep, WordCounter.step, whitespace_eq_of_ne_vt b hb h11]

lemma ccwc_word_fold (chunk : List Nat) : ∀ w : WordCounter,
    (∀ b ∈ chunk, b < 256 ∧ b ≠ 11) →
    chunk.foldl ccwcWordStep (w.word_count, w.in_word)
      = ((WordCounter.count_words w chunk).word_count,
         (WordCounter.count_words w chunk).in_word) := by
  induction chunk with
  | nil => intro w _; rfl
  | cons b bs ih =>
    intro w hb
    show bs.foldl ccwcWordStep (ccwcWordStep (w.word_count, w.in_word) b) = _
    rw [ccwcWordStep_sim b (hb b (by simp)).1 (hb b (by simp)).2 w]
    exact ih (WordCounter.step w b) (fun x hx => hb x (by simp [hx]))

lemma loop_sim_lb (pb pc pl pw mn : Bool) (chunks : List (List Nat)) :
    ∀ (w : WcCounters) (c : CcwcState),
    c.lines = w.nc.line_count → c.bytes = w.bc.byte_count →
    w.bc.metadata_found = !mn →
    (chunks.foldl (ccwcChunkStep pb pl pw mn) c).lines
      = (chunks.foldl (wcChunkStep pb pc pl pw) w).nc.line_count
    ∧ (chunks.foldl (ccwcChunkStep pb pl pw mn) c).bytes
      = (chunks.foldl (wcChunkStep pb pc pl pw) w).bc.byte_count
    ∧ (chunks.foldl (wcChunkStep pb pc pl pw) w).bc.metadata_found = !mn := by
  induction chunks with
  | nil => intro w c h1 h4 h5; exact ⟨h1, h4, h5⟩
  | cons chunk rest ih =>
    intro w c h1 h4 h5
    rw [List.foldl_cons, List.foldl_cons]
    refine ih (wcChunkStep pb pc pl pw w chunk) (ccwcChunkStep pb pl pw mn c chunk)
      ?_ ?_ ?_
    · rw [ccwcChunkStep_lines, wcChunkStep_nc]
      cases pl
      · simpa using h1
      · simp [NewlineCounter.count_newlines, h1]
    · rw [ccwcChunkStep_bytes, wcChunkStep_bc]
      cases pb
      · simpa using h4
      · cases hm : mn
        · have : w.bc.metadata_found = true := by rw [h5, hm]; rfl
          simp [count_bytes_byte_count, this, h4]
        · have : w.bc.metadata_found = false := by rw [h5, hm]; rfl
          simp [count_bytes_byte_count, this, h4]
    · rw [wcChunkStep_bc]
      cases pb
      · simpa using h5
      · simpa [count_bytes_metadata_found] using h5

lemma loop_sim_words (pb pc pl pw mn : Bool) (chunks : List (List Nat)) :
    ∀ (w : WcCounters) (c : CcwcState),
    (∀ b ∈ chunks.flatten, b < 256 ∧ b ≠ 11) →
    c.words = w.wc.word_count → c.in_word = w.wc.in_word →
    (chunks.foldl (ccwcChunkStep pb pl pw mn) c).words
      = (chunks.foldl (wcChunkStep pb pc pl pw) w).wc.word_count
    ∧ (chunks.foldl (ccwcChunkStep pb pl pw mn) c).in_word
      = (chunks.foldl (wcChunkStep pb pc pl pw) w).wc.in_word := by
  induction chunks with
  | nil => intro w c _ h2 h3; exact ⟨h2, h3⟩
  | cons chunk rest ih =>
    intro w c hb h2 h3
    rw [List.foldl_cons, List.foldl_cons]
    have hbc : ∀ b ∈ chunk, b < 256 ∧ b ≠ 11 := by
      intro b hbb; exact hb b (by simp [hbb])
    have hbr : ∀ b ∈ rest.flatten, b < 256 ∧ b ≠ 11 := by
      intro b hbb; exact hb b (by simp [hbb])
    refine ih (wcChunkStep pb pc pl pw w chunk) (ccwcChunkStep pb pl pw mn c chunk)
      hbr ?_ ?_
    · rw [ccwcChunkStep_words, wcChunkStep_wc]
      cases pw
      · simpa using h2
      · simp only [if_true]
        rw [h2, h3, ccwc_word_fold chunk w.wc hbc]
    · rw [ccwcChunkStep_in_word, wcChunkStep_wc]
      cases pw
      · simpa using h3
      · simp only [if_true]
        rw [h2, h3, ccwc_word_fold chunk w.wc hbc]

/-- Counterexample to Claim C9 as stated: on the single chunk `[0x0B]`
(vertical tab) with identical flags, ccwc counts 0 words while cc-wc
counts 1, so the two implementations do not always agree. -/
theorem C9_counterexample :
    (([[11]] : List (List Nat)).foldl (ccwcChunkStep true true true true)
        (ccwcInit none)).words
    ≠ (([[11]] : List (List Nat)).foldl (wcChunkStep true false true true)
        (initCounters none)).wc.word_count := by
  decide

/-- Claim C9 (amended): with identical chunking and identical flag
selection, cc-wc and ccwc always produce the same final line and byte
totals, and the same final word total provided the stream contains no
vertical-tab byte 0x0B (on which their whitespace classifiers disagree). -/
theorem C9_amended (pb pc pl pw : Bool) (metadata : Option Nat)
    (chunks : List (List Nat)) :
    (chunks.foldl (ccwcChunkStep pb pl pw metadata.isNone)
        (ccwcInit metadata)).lines
      = (chunks.foldl (wcChunkStep pb pc pl pw) (initCounters metadata)).nc.line_count
    ∧ (chunks.foldl (ccwcChunkStep pb pl pw metadata.isNone)
        (ccwcInit metadata)).bytes
      = (chunks.foldl (wcChunkStep pb pc pl pw) (initCounters metadata)).bc.byte_count
    ∧ ((∀ b ∈ chunks.flatten, b < 256 ∧ b ≠ 11) →
        (chunks.foldl (ccwcChunkStep pb pl pw metadata.isNone)
            (ccwcInit metadata)).words
          = (chunks.foldl (wcChunkStep pb pc pl pw)
              (initCounters metadata)).wc.word_count) := by
  have hinit_lines : (ccwcInit metadata).lines = (initCounters metadata).nc.line_count := rfl
  have hinit_bytes : (ccwcInit metadata).bytes = (initCounters metadata).bc.byte_count := by
    cases metadata <;> rfl
  have hinit_md : (initCounters metadata).bc.metadata_found = !metadata.isNone := by
    cases metadata <;> rfl
  have hlb := loop_sim_lb pb pc pl pw metadata.isNone chunks
    (initCounters metadata) (ccwcInit metadata) hinit_lines hinit_bytes hinit_md
  refine ⟨hlb.1, hlb.2.1, fun hb => ?_⟩
  exact (loop_sim_words pb pc pl pw metadata.isNone chunks
    (initCounters metadata) (ccwcInit metadata) hb rfl rfl).1

/-- Witness for C9 (amended) on the stream `"hi cc"` in two chunks with a
file-size hint of 5. -/
theorem C9_amended_witness :
    (([[104, 105], [32, 99, 99]] : List (List Nat)).foldl
        (ccwcChunkStep true true true (some 5 : Option Nat).isNone)
        (ccwcInit (some 5))).lines
      = (([[104, 105], [32, 99, 99]] : List (List Nat)).foldl
          (wcChunkStep true false true true) (initCounters (some 5))).nc.line_count
    ∧ (([[104, 105], [32, 99, 99]] : List (List Nat)).foldl
        (ccwcChunkStep true true true (some 5 : Option Nat).isNone)
        (ccwcInit (some 5))).words
      = (([[104, 105], [32, 99, 99]] : List (List Nat)).foldl
          (wcChunkStep true false true true) (initCounters (some 5))).wc.word_count :=
  ⟨(C9_amended true false true true (some 5) [[104, 105], [32, 99, 99]]).1,
   (C9_amended true false true true (some 5) [[104, 105], [32, 99, 99]]).2.2
     (by decide)⟩

/-! ## Read-error behaviour and the ccwc chars flag -/

/-- Claim C4 is contradicted by the code: after the chunk `"hi"` has been
processed, a read error merely exits the `while let Ok(..)` loop; both
programs then print the partially accumulated counts (0 lines, 1 word,
2 bytes) and finish successfully, instead of aborting without a report. -/
theorem C4_read_error_partial_report :
    wcMain true false true true none [ReadResult.ok [104, 105], ReadResult.err]
      = ⟨[0, 1, 2], false⟩
    ∧ ccwcMain true false true true none [ReadResult.ok [104, 105], ReadResult.err]
      = [0, 1, 2] := by
  decide

lemma ccwcLoop_chars (pb pl pw mn : Bool) (reads : List ReadResult) :
    ∀ s : CcwcState, (ccwcLoop pb pl pw mn s reads).chars = s.chars := by
  induction reads with
  | nil => intro s; rfl
  | cons r rest ih =>
    intro s
    cases r with
    | err => rfl
    | ok chunk =>
      show (if chunk.length = 0 then s
        else ccwcLoop pb pl pw mn (ccwcChunkStep pb pl pw mn s chunk) rest).chars
          = s.chars
      split
      · rfl
      · rw [ih, ccwcChunkStep_chars]

/-- Claim C10: in ccwc the `-m`/`--chars` flag survives flag resolution but
no character count is ever computed (the `chars` accumulator stays 0 for
every input) or printed — with only the chars flag selected the output
contains no numeric fields at all. -/
theorem C10_chars_flag (metadata : Option Nat) (reads : List ReadResult) :
    resolveFlags false true false false = (false, true, false, false)
    ∧ ccwcMain false true false false metadata reads = []
    ∧ (ccwcLoop false false false metadata.isNone (ccwcInit metadata) reads).chars
        = 0 := by
  refine ⟨rfl, rfl, ?_⟩
  rw [ccwcLoop_chars]
  rfl

end WcSpec
